import Mathlib

/-!
# Verification of the VANET trust-management core

A shallow embedding, in Lean 4, of the trust and routing core of the
DecentralizedTrustManagementForVanets repository:

* `src/blockchain.py` — the hash-chained trust ledger (`Block`, `Blockchain`);
* `src/rsu.py` — the per-RSU anomaly detector (`RSU._update_vehicle_data` and
  its helpers);
* `src/algorithms/tmr.py` — the greedy forward-progress router (`TMRRouter`);
* `src/algorithms/gytar.py` — the junction-based greedy router (`GyTARRouter`).

Python floats are modelled as exact rationals (`ℚ`).  Every comparison the
source makes between a `math.sqrt` value and another quantity is embedded as
the equivalent comparison of squares (documented at each definition), so all
predicates stay decidable.  Python dicts that are used with insertion-order
iteration are modelled as association lists with in-place replacement, which
has the same key/value and ordering semantics.
-/

/-! ## Association-list model of Python dicts

`assocInsert` mirrors `d[k] = v`: it replaces the value at an existing key in
place (keeping the key's position, as Python dicts do) and otherwise appends
the new binding at the end.  `assocErase` mirrors `del d[k]`. -/

def assocLookup {κ α : Type} [DecidableEq κ] : List (κ × α) → κ → Option α
  | [], _ => none
  | (k', v) :: t, k => if k' = k then some v else assocLookup t k

def assocInsert {κ α : Type} [DecidableEq κ] : List (κ × α) → κ → α → List (κ × α)
  | [], k, v => [(k, v)]
  | (k', v') :: t, k, v =>
      if k' = k then (k', v) :: t else (k', v') :: assocInsert t k v

def assocErase {κ α : Type} [DecidableEq κ] : List (κ × α) → κ → List (κ × α)
  | [], _ => []
  | (k', v') :: t, k => if k' = k then t else (k', v') :: assocErase t k

def assocGetD {κ α : Type} [DecidableEq κ] (l : List (κ × α)) (k : κ) (d : α) : α :=
  (assocLookup l k).getD d

/-! ## Geometry

Locations are `{x, y}` dicts of floats in the source; `dist2` is the square of
the Euclidean distance that every `_distance` helper computes with
`math.sqrt`.  A source comparison `sqrt d2 OP c` with `c ≥ 0` is embedded as
`d2 OP c^2`, which is equivalent because both sides are nonnegative. -/

structure Point where
  x : ℚ
  y : ℚ
deriving DecidableEq, Repr

def dist2 (p q : Point) : ℚ := (p.x - q.x) ^ 2 + (p.y - q.y) ^ 2

/-! ## Configuration constants (src/config.py) -/

def NETWORK_LENGTH : ℚ := 3000
def NETWORK_WIDTH : ℚ := 3000
def VEHICLE_MIN_VELOCITY : ℚ := 60
def VEHICLE_MAX_VELOCITY : ℚ := 100
def MAX_V2V_RANGE : ℚ := 300
def MAX_VEHICLES : ℚ := 101

/-! ## The trust ledger (src/blockchain.py)

`Block.calculate_hash` serializes `self.__dict__` with `json.dumps(...,
sort_keys=True)` and digests it with SHA-256.  We idealize the digest as a
collision-free function of the serialized dict, i.e. as a free constructor of
the dict's contents.  The crucial point of the source is that the dict
contents differ between the two call sites of `calculate_hash`:

* inside `Block.__init__`, `self.hash` has not been assigned yet, so the
  serialized dict holds the four fields `{index, timestamp, data,
  previous_hash}` (`HashVal.digestNoHash`);
* inside `Blockchain.is_chain_valid`, the block is fully built, so the
  serialized dict additionally holds `hash` (`HashVal.digestWithHash`).
-/

/-- The traffic dictionaries (`Dict[str, float]`) passed around by the
source, e.g. `{'vehicle_count': …, 'average_speed': …, 'congestion_level':
…}`. -/
def TrafficDict : Type := List (String × ℚ)

instance : DecidableEq TrafficDict := by
  unfold TrafficDict
  infer_instance

/-- The block payload dicts built by `Blockchain`'s record methods, tagged by
their `"type"` field (the genesis payload has no type tag, only a message). -/
inductive Payload where
  | genesis
  | maliciousVehicle (vehicle_id : String) (timestamp : ℚ)
  | vehicleData (vehicle_id : String) (location : Point) (speed : ℚ)
      (direction : ℚ) (message : String) (timestamp : ℚ)
  | rsuData (rsu_id : String) (connected_vehicles : List String)
      (traffic_data : TrafficDict) (timestamp : ℚ)
deriving DecidableEq

/-- A hash string: either a literal such as the genesis `"0"`, or the SHA-256
digest of a serialized block dict (collision-free idealization; `json.dumps`
with sorted keys is injective on these dicts). -/
inductive HashVal where
  | raw (s : String)
  | digestNoHash (index : ℕ) (timestamp : ℚ) (data : Payload)
      (previous_hash : HashVal)
  | digestWithHash (index : ℕ) (timestamp : ℚ) (data : Payload)
      (previous_hash : HashVal) (hash : HashVal)
deriving DecidableEq

structure Block where
  index : ℕ
  timestamp : ℚ
  data : Payload
  previous_hash : HashVal
  hash : HashVal
deriving DecidableEq

/-- `Block.__init__`: the stored hash is computed while `self.__dict__` still
lacks the `hash` key, so it digests only the other four fields. -/
def Block.init (index : ℕ) (timestamp : ℚ) (data : Payload)
    (previous_hash : HashVal) : Block :=
  { index, timestamp, data, previous_hash,
    hash := HashVal.digestNoHash index timestamp data previous_hash }

/-- `Block.calculate_hash` on a fully-constructed block: `self.__dict__` now
contains all five fields, including `hash` itself. -/
def Block.calculate_hash (b : Block) : HashVal :=
  HashVal.digestWithHash b.index b.timestamp b.data b.previous_hash b.hash

structure Blockchain where
  chain : List Block
  malicious_vehicles : List String
deriving DecidableEq

/-- `Blockchain.create_genesis_block` (the `time.time()` value is a
parameter). -/
def create_genesis_block (t : ℚ) : Block :=
  Block.init 0 t .genesis (.raw "0")

/-- `Blockchain.__init__`. -/
def Blockchain.init (t : ℚ) : Blockchain :=
  { chain := [create_genesis_block t], malicious_vehicles := [] }

/-- `Blockchain.get_latest_block` (`self.chain[-1]`; `none` models the
`IndexError` on an empty chain, which never occurs since the chain always
holds the genesis block). -/
def Blockchain.get_latest_block (bc : Blockchain) : Option Block :=
  bc.chain.getLast?

/-- `Blockchain.add_block` (on an empty chain the Python code would raise;
that state is unreachable, and we model it as a no-op). -/
def Blockchain.add_block (bc : Blockchain) (t : ℚ) (data : Payload) : Blockchain :=
  match bc.chain.getLast? with
  | none => bc
  | some prev =>
      { bc with chain := bc.chain ++ [Block.init (prev.index + 1) t data prev.hash] }

/-- The pairwise walk of `Blockchain.is_chain_valid`: for every `i ≥ 1`,
check `current.hash == current.calculate_hash()` and then
`current.previous_hash == previous.hash`. -/
def validWalk : List Block → Bool
  | [] => true
  | [_] => true
  | prev :: cur :: rest =>
      (cur.hash == cur.calculate_hash) && (cur.previous_hash == prev.hash)
        && validWalk (cur :: rest)

def Blockchain.is_chain_valid (bc : Blockchain) : Bool :=
  validWalk bc.chain

/-- `Blockchain.add_malicious_vehicle`: add to the set, then record a marking
block.  `tPayload` and `tBlock` are the two separate `time.time()` calls (one
in the payload dict, one inside `add_block`). -/
def Blockchain.add_malicious_vehicle (bc : Blockchain) (vid : String)
    (tPayload tBlock : ℚ) : Blockchain :=
  let bc1 : Blockchain :=
    { bc with malicious_vehicles :=
        if vid ∈ bc.malicious_vehicles then bc.malicious_vehicles
        else bc.malicious_vehicles ++ [vid] }
  bc1.add_block tBlock (.maliciousVehicle vid tPayload)

/-- `Blockchain.record_vehicle_data`. -/
def Blockchain.record_vehicle_data (bc : Blockchain) (vid : String)
    (location : Point) (speed direction : ℚ) (message : String)
    (tPayload tBlock : ℚ) : Blockchain :=
  bc.add_block tBlock (.vehicleData vid location speed direction message tPayload)

/-- `Blockchain.record_rsu_data`. -/
def Blockchain.record_rsu_data (bc : Blockchain) (rsu_id : String)
    (connected : List String) (traffic : TrafficDict)
    (tPayload tBlock : ℚ) : Blockchain :=
  bc.add_block tBlock (.rsuData rsu_id connected traffic tPayload)

/-- One append-side ledger operation, with the `time.time()` values it draws
made explicit. -/
inductive LedgerOp where
  | addBlock (tBlock : ℚ) (data : Payload)
  | recordVehicleData (vid : String) (location : Point) (speed direction : ℚ)
      (message : String) (tPayload tBlock : ℚ)
  | recordRsuData (rsu_id : String) (connected : List String)
      (traffic : TrafficDict) (tPayload tBlock : ℚ)
  | addMaliciousVehicle (vid : String) (tPayload tBlock : ℚ)

def applyLedgerOp (bc : Blockchain) : LedgerOp → Blockchain
  | .addBlock t d => bc.add_block t d
  | .recordVehicleData vid loc sp dir msg tp tb =>
      bc.record_vehicle_data vid loc sp dir msg tp tb
  | .recordRsuData rid conn tr tp tb => bc.record_rsu_data rid conn tr tp tb
  | .addMaliciousVehicle vid tp tb => bc.add_malicious_vehicle vid tp tb

def applyLedgerOps (bc : Blockchain) (ops : List LedgerOp) : Blockchain :=
  ops.foldl applyLedgerOp bc

/-- A block whose stored hash is exactly the construction-time digest of its
other four fields — true of every block the source ever builds. -/
def Block.fresh (b : Block) : Prop :=
  b.hash = HashVal.digestNoHash b.index b.timestamp b.data b.previous_hash

instance (b : Block) : Decidable b.fresh := by
  unfold Block.fresh
  infer_instance

/-- The pairwise linkage invariant: for every `i > 0`,
`chain[i].previous_hash == chain[i-1].hash` and
`chain[i].index == chain[i-1].index + 1`. -/
def linkedWalk : List Block → Bool
  | [] => true
  | [_] => true
  | a :: b :: rest =>
      (b.previous_hash == a.hash) && (b.index == a.index + 1)
        && linkedWalk (b :: rest)

/-- The chain invariant of the spec: linkage plus every block's stored hash
being the digest computed over its other fields at construction time. -/
def chainInvariant (bc : Blockchain) : Prop :=
  linkedWalk bc.chain = true ∧ ∀ b ∈ bc.chain, b.fresh

/-! ## The anomaly detector (src/rsu.py)

We embed `RSU._update_vehicle_data` together with its helper
`RSU._get_nearby_vehicles`.  The socket, threading and logging code around
them is out of scope; the update's `current_time = time.time()` and the
sender port `addr[1]` are explicit parameters.  The two `time.time()` calls
that `blockchain.add_malicious_vehicle` performs while handling the marking
are modelled by the same instant `current_time`. -/

/-- The fields of an incoming beacon payload that `_update_vehicle_data`
reads.  `sees_accident = none` models the absence of the `'sees_accident'`
key from the message dict. -/
structure BeaconData where
  location : Point
  speed : ℚ
  direction : ℚ
  sees_accident : Option Bool
deriving DecidableEq

/-- A stored entry of `connected_vehicles`:
`{**data, 'timestamp': current_time, 'port': addr[1]}` — the spread of the
incoming message with the RSU-side timestamp and port overriding. -/
structure StoredData where
  data : BeaconData
  timestamp : ℚ
  port : ℕ
deriving DecidableEq

/-- The mutable RSU state touched by `_update_vehicle_data`.  (The
`suspicious_vehicles` set initialized in `RSU.__init__` is never read or
written by any method, so it is omitted; `traffic_data` is not touched by
the update path.) -/
structure RSUState where
  location : Point
  connected_vehicles : List (String × StoredData)
  suspicious_count : List (String × ℕ)
  blockchain : Blockchain
deriving DecidableEq

/-- `RSU._get_nearby_vehicles`: vehicles within `range_limit` metres of the
given location, skipping known-malicious ids.  The source compares
`sqrt(d2) <= range_limit`; with the call-site `range_limit = 300 ≥ 0` this is
`d2 ≤ range_limit²`. -/
def get_nearby_vehicles (rsu : RSUState) (location : Point)
    (range_limit : ℚ) : List (String × StoredData) :=
  rsu.connected_vehicles.filter (fun p =>
    decide (p.1 ∉ rsu.blockchain.malicious_vehicles) &&
      decide (dist2 location p.2.data.location ≤ range_limit ^ 2))

/-- Check 1 of `_update_vehicle_data`: impossible speed
(`data['speed'] > VEHICLE_MAX_VELOCITY * 1.5`). -/
def speed_suspicious (data : BeaconData) : Bool :=
  decide (VEHICLE_MAX_VELOCITY * (3 / 2) < data.speed)

/-- `max_distance = (prev_data['speed'] * 1000 / 3600) * time_diff * 1.2`. -/
def max_distance (prev_speed time_diff : ℚ) : ℚ :=
  prev_speed * 1000 / 3600 * time_diff * (6 / 5)

/-- Check 2: impossible movement.  The source tests
`sqrt(actual2) > max_distance`; since the square root is nonnegative this
holds iff `max_distance < 0` or `max_distance² < actual2`. -/
def movement_suspicious (prev : StoredData) (data : BeaconData)
    (time_diff : ℚ) : Bool :=
  decide (max_distance prev.data.speed time_diff < 0) ||
    decide (max_distance prev.data.speed time_diff ^ 2
      < dist2 data.location prev.data.location)

/-- Check 3: position more than 10 m outside the network rectangle. -/
def bounds_suspicious (data : BeaconData) : Bool :=
  decide (data.location.x < -10) || decide (NETWORK_LENGTH + 10 < data.location.x) ||
    decide (data.location.y < -10) || decide (NETWORK_WIDTH + 10 < data.location.y)

/-- The `nearby_reports` comprehension: `sees_accident` values of vehicles
near the reported location whose stored entry has the flag and whose stored
timestamp satisfies `v['timestamp'] > current_time - 2`.  Note that the
iteration is over `_get_nearby_vehicles(data['location'])`, i.e. over all
tracked non-malicious vehicles — including, possibly, the reporting
vehicle's own previous entry. -/
def nearby_reports (rsu : RSUState) (loc : Point) (current_time : ℚ) :
    List Bool :=
  (get_nearby_vehicles rsu loc 300).filterMap (fun p =>
    match p.2.data.sees_accident with
    | some f => if current_time - 2 < p.2.timestamp then some f else none
    | none => none)

/-- `majority_report = sum(nearby_reports) > len(nearby_reports) / 2` with
exact arithmetic: the count of `True` flags strictly exceeds half the list
length. -/
def majority_report (reports : List Bool) : Bool :=
  decide (reports.length < reports.count true * 2)

/-- Check 4: inconsistent accident reporting.  Evaluated only when the
update carries `sees_accident`; fires when there is at least one recent
nearby report and the reported flag differs from the majority. -/
def accident_suspicious (rsu : RSUState) (data : BeaconData)
    (current_time : ℚ) : Bool :=
  match data.sees_accident with
  | none => false
  | some flag =>
      decide (nearby_reports rsu data.location current_time ≠ []) &&
        (flag != majority_report (nearby_reports rsu data.location current_time))

/-- The `is_suspicious` flag after the four checks of
`_update_vehicle_data`. -/
def is_suspicious_update (rsu : RSUState) (prev : StoredData)
    (data : BeaconData) (time_diff current_time : ℚ) : Bool :=
  speed_suspicious data || movement_suspicious prev data time_diff ||
    bounds_suspicious data || accident_suspicious rsu data current_time

/-- The single storing exit of `_update_vehicle_data` (its final statement):
`self.connected_vehicles[vehicle_id] = {**data, 'timestamp': current_time,
'port': addr[1]}`. -/
def store_update (rsu : RSUState) (vid : String) (data : BeaconData)
    (port : ℕ) (current_time : ℚ) : RSUState :=
  { rsu with connected_vehicles :=
      assocInsert rsu.connected_vehicles vid ⟨data, current_time, port⟩ }

/-- `RSU._update_vehicle_data`. -/
def update_vehicle_data (rsu : RSUState) (vid : String) (data : BeaconData)
    (port : ℕ) (current_time : ℚ) : RSUState :=
  if vid ∈ rsu.blockchain.malicious_vehicles then rsu
  else
    match assocLookup rsu.connected_vehicles vid with
    | some prev =>
        if 0 < current_time - prev.timestamp then
          if is_suspicious_update rsu prev data (current_time - prev.timestamp)
              current_time = true then
            let cnt := assocGetD rsu.suspicious_count vid 0 + 1
            let rsu1 : RSUState :=
              { rsu with suspicious_count :=
                  assocInsert rsu.suspicious_count vid cnt }
            if 3 ≤ cnt then
              { rsu1 with
                blockchain := rsu1.blockchain.add_malicious_vehicle vid
                  current_time current_time,
                connected_vehicles := assocErase rsu1.connected_vehicles vid }
            else store_update rsu1 vid data port current_time
          else store_update rsu vid data port current_time
        else store_update rsu vid data port current_time
    | none => store_update rsu vid data port current_time

/-! ### Concrete detector fixtures

The scenario of spec §8: a tracked vehicle previously at `(0,0)` with stored
speed 80 km/h, observed again one second later. -/

/-- Stored snapshot: location `(0,0)`, speed 80 km/h, no accident flag,
stored at time 0 from port 1. -/
def prevW : StoredData := ⟨⟨⟨0, 0⟩, 80, 0, none⟩, 0, 1⟩

/-- An update one second later claiming location `(1000,0)` at 79 km/h. -/
def dataFar : BeaconData := ⟨⟨1000, 0⟩, 79, 0, none⟩

/-- An update one second later claiming location `(22,0)` at 79 km/h. -/
def dataNear : BeaconData := ⟨⟨22, 0⟩, 79, 0, none⟩

/-- An RSU at the origin tracking exactly `"v1"` (snapshot `prevW`) with a
given prior suspicion count. -/
def rsuAt (cnt : ℕ) : RSUState :=
  ⟨⟨0, 0⟩, [("v1", prevW)], [("v1", cnt)], Blockchain.init 0⟩

/-- An RSU whose ledger already blacklists `"v1"`. -/
def rsuMal : RSUState :=
  ⟨⟨0, 0⟩, [], [], ⟨[create_genesis_block 0], ["v1"]⟩⟩

/-- Stored snapshot of `"v1"` carrying an accident-visibility flag `True`,
stored at time 10. -/
def prevAcc : StoredData := ⟨⟨⟨0, 0⟩, 80, 0, some true⟩, 10, 1⟩

/-- An RSU tracking only `"v1"` with snapshot `prevAcc`. -/
def rsuAcc : RSUState :=
  ⟨⟨0, 0⟩, [("v1", prevAcc)], [], Blockchain.init 0⟩

/-- `"v1"`'s next beacon at time 11: unchanged position and speed, accident
flag `False`. -/
def dataAcc : BeaconData := ⟨⟨0, 0⟩, 80, 0, some false⟩

/-! ## The routing strategies (src/algorithms/tmr.py, gytar.py)

A vehicle snapshot, as read by the routers (`vehicle_data['location']`,
`vehicle_data['speed']`). -/

structure VehicleInfo where
  location : Point
  speed : ℚ
deriving DecidableEq, Repr

/-- `traffic_data.get('congestion_level', 0)`. -/
def trafficCongestion (traffic : TrafficDict) : ℚ :=
  assocGetD traffic "congestion_level" 0

/-- The speed normalization `(speed − V_min)/(V_max − V_min)` shared by every
strategy's scoring. -/
def speed_factor (speed : ℚ) : ℚ :=
  (speed - VEHICLE_MIN_VELOCITY) / (VEHICLE_MAX_VELOCITY - VEHICLE_MIN_VELOCITY)

/-- `_is_forward_progress` (identical in `TMRRouter` and `GyTARRouter`):
`next_dist < current_dist`, embedded on squares. -/
def is_forward_progress (current next_hop destination : Point) : Bool :=
  decide (dist2 next_hop destination < dist2 current destination)

/-! ### Exact comparison of score expressions containing square roots

The hop scores of `tmr.py` and `gytar.py` have the form
`w·(√A − √a) + u`, where `A = dist2(current, dest)` is the same for every
candidate of one selection pass, `a = dist2(candidate, dest)` varies, `w` is
the progress weight (`0.5` for TMR, `0.7` for GyTAR's vehicle hops) and `u`
is a rational combination of the speed and congestion factors.  A candidate
is therefore represented exactly by the pair `(u, a)`, and
`score₁ > score₂ ⟺ u₁ − u₂ > w(√a₁ − √a₂) ⟺ √a₁ < (u₁−u₂)/w + √a₂`,
which `sqrtLtAddSqrt` decides exactly over ℚ.

`sqrtLtAddSqrt a r b` decides `√a < r + √b` for `a, b ≥ 0`:
* if `r ≥ 0` then the right side is nonnegative, and squaring gives
  `√a < √b + r ⟺ a − b − r² < 2r√b ⟺ (a−b−r² < 0) ∨ (a−b−r²)² < (2r)²·b`
  (the last step squares both sides, valid when `a−b−r² ≥ 0`);
* if `r < 0` then `√a < √b + r ⟺ √a + (−r) < √b
  ⟺ (−2r)·√a < b − a − r² ⟺ 0 < b−a−r² ∧ (2r)²·a < (b−a−r²)²`. -/
def sqrtLtAddSqrt (a r b : ℚ) : Bool :=
  if 0 ≤ r then
    decide (a - b - r ^ 2 < 0) ||
      decide ((a - b - r ^ 2) ^ 2 < (2 * r) ^ 2 * b)
  else
    decide (0 < b - a - r ^ 2) &&
      decide ((2 * r) ^ 2 * a < (b - a - r ^ 2) ^ 2)

/-- Decides `score₁ > score₂` for candidates `(u₁,a₁)`, `(u₂,a₂)` under
progress weight `w > 0` (see above). -/
def progressScoreGt (w : ℚ) (c1 c2 : ℚ × ℚ) : Bool :=
  sqrtLtAddSqrt c1.2 ((c1.1 - c2.1) / w) c2.2

/-! ### TMRRouter (src/algorithms/tmr.py) -/

/-- The exact `(u, a)` representation of `_calculate_hop_score`:
`0.5·progress + 0.3·speed_factor + 0.2·(1 − congestion)` with
`progress = √A − √a`, so `u = 0.3·speed_factor + 0.2·(1 − congestion)` and
`a = dist2(next_hop, destination)`. -/
def tmr_hop_cand (speed congestion nextD2 : ℚ) : ℚ × ℚ :=
  ((3 / 10) * speed_factor speed + (2 / 10) * (1 - congestion), nextD2)

/-- `TMRRouter._find_next_hop`: fold over the snapshot; `best_score` starts
at `float('-inf')` and every candidate's score is a finite real, so the
accumulator is an `Option` and the first forward-progress candidate always
replaces `none`. -/
def tmr_find_next_hop (current_pos destination : Point)
    (vehicles : List VehicleInfo) (traffic : TrafficDict) : Option Point :=
  (vehicles.foldl (fun best v =>
    if is_forward_progress current_pos v.location destination then
      let c := tmr_hop_cand v.speed (trafficCongestion traffic)
        (dist2 v.location destination)
      match best with
      | none => some (c, v.location)
      | some (cb, _) =>
          if progressScoreGt (1 / 2) c cb then some (c, v.location) else best
    else best) none).map Prod.snd

/-- The `while` loop of `TMRRouter.find_route`, fuelled; it returns the list
of hops appended to the route.  `none` means the fuel ran out;
`C8_tmr_find_route_terminates` shows that `vehicles.length + 1` units always
suffice, because every accepted hop strictly decreases the distance to the
destination and hops are drawn from the snapshot. -/
def tmr_route_loop (fuel : ℕ) (current_pos destination : Point)
    (vehicles : List VehicleInfo) (traffic : TrafficDict) :
    Option (List Point) :=
  match fuel with
  | 0 => none
  | fuel + 1 =>
      if dist2 current_pos destination ≤ 100 ^ 2 then some []
      else
        match tmr_find_next_hop current_pos destination vehicles traffic with
        | none => some []
        | some h =>
            (tmr_route_loop fuel h destination vehicles traffic).map
              (fun rest => h :: rest)

/-- The mutable state of `TMRRouter`: the route cache.  The source key is the
f-string `"x,y->x,y"`, which is injective on (source, destination) pairs, so
we key by the pair itself.  (`message_history` is never read by any embedded
method and is omitted.) -/
structure TMRRouter where
  route_cache : List ((Point × Point) × List Point)
deriving DecidableEq

/-- `TMRRouter.find_route`: cached lookup, else run the loop (with
always-sufficient fuel) and build `[source] ++ hops ++ [destination]`. -/
def TMRRouter.find_route (router : TMRRouter)
    (source_location destination_location : Point)
    (vehicles : List VehicleInfo) (traffic : TrafficDict) :
    TMRRouter × List Point :=
  match assocLookup router.route_cache (source_location, destination_location) with
  | some cached => (router, cached)
  | none =>
      let hops := (tmr_route_loop (vehicles.length + 1) source_location
        destination_location vehicles traffic).getD []
      let route := source_location :: (hops ++ [destination_location])
      ({ router with route_cache := assocInsert router.route_cache (source_location, destination_location) route }, route)

/-- `TMRRouter.update_traffic`: clear the whole cache only when it exceeds
100 entries. -/
def TMRRouter.update_traffic (router : TMRRouter) (traffic : TrafficDict) :
    TMRRouter :=
  if 100 < router.route_cache.length then { router with route_cache := [] }
  else router

/-! ### GyTARRouter (src/algorithms/gytar.py) -/

/-- The junction grid coordinates `range(0, NETWORK_LENGTH, 500)` (and
likewise for the width): `[0, 500, 1000, 1500, 2000, 2500]`. -/
def grid_coordinates : List ℚ :=
  (List.range 6).map (fun i => (500 : ℚ) * i)

/-- `GyTARRouter._get_potential_junctions`: the grid points within V2V range
of the current position (`sqrt d2 ≤ 300` embedded on squares). -/
def get_potential_junctions (current_pos : Point) : List Point :=
  (grid_coordinates.flatMap (fun x => grid_coordinates.map
    (fun y => Point.mk x y))).filter
    (fun j => decide (dist2 current_pos j ≤ MAX_V2V_RANGE ^ 2))

/-- `GyTARRouter._calculate_traffic_density`:
`min(1.0, count(in-range snapshots) / (MAX_VEHICLES * 0.1))`. -/
def traffic_density (junction : Point) (vehicles : List VehicleInfo) : ℚ :=
  min 1
    (((vehicles.filter (fun v =>
        decide (dist2 junction v.location ≤ MAX_V2V_RANGE ^ 2))).length : ℚ)
      / (MAX_VEHICLES * (1 / 10)))

/-- The exact `(w, a)` representation of `_calculate_junction_score`.  The
score is `0.4·(√A − √a)/√A + 0.4·density + 0.2·(1 − congestion)`
`= w − 0.4·√a/√A` with `w = 0.4 + 0.4·density + 0.2·(1 − congestion)` and
`a = dist2(junction, destination)`; `A = dist2(current, dest)` is common to
all candidates of one pass (the source divides by `√A`, so `A > 0` whenever
`find_route` calls this — inside its loop `√A > 100`). -/
def junction_score_cand (junction destination : Point)
    (vehicles : List VehicleInfo) (traffic : TrafficDict) : ℚ × ℚ :=
  ((2 / 5) + (2 / 5) * traffic_density junction vehicles
      + (1 / 5) * (1 - trafficCongestion traffic),
    dist2 junction destination)

/-- Decides `p·√A + q·√B > q·√C` exactly for `A, B, C ≥ 0`, `q ≥ 0`.
Derivation: the right side `R = q√C` is nonnegative.  The left side
`L = p√A + q√B` is nonnegative iff `p ≥ 0` or `q²B ≥ p²A`; when `L < 0` the
comparison is false.  When `L ≥ 0`, `L > R ⟺ L² > R²
⟺ 2pq·√(AB) > q²C − p²A − q²B =: c`; with `s := 2pq` this is
`(c < 0) ∨ c² < s²·AB` when `s ≥ 0`, and `0 < −c ∧ s²·AB < c²` when
`s < 0`. -/
def sqrtCombGt (p A q B C : ℚ) : Bool :=
  if 0 ≤ p then
    decide (q ^ 2 * C - p ^ 2 * A - q ^ 2 * B < 0) ||
      decide ((q ^ 2 * C - p ^ 2 * A - q ^ 2 * B) ^ 2
        < (2 * p * q) ^ 2 * (A * B))
  else
    decide (p ^ 2 * A ≤ q ^ 2 * B) &&
      (decide (0 < -(q ^ 2 * C - p ^ 2 * A - q ^ 2 * B)) &&
        decide ((2 * p * q) ^ 2 * (A * B)
          < (q ^ 2 * C - p ^ 2 * A - q ^ 2 * B) ^ 2))

/-- Decides `junction score₁ > score₂` for candidates `(w₁,a₁)`, `(w₂,a₂)`:
`w₁ − 0.4√a₁/√A > w₂ − 0.4√a₂/√A ⟺ (w₁−w₂)·√A + 0.4·√a₂ > 0.4·√a₁`
(multiplying by `√A > 0`). -/
def junctionScoreGt (A : ℚ) (c1 c2 : ℚ × ℚ) : Bool :=
  sqrtCombGt (c1.1 - c2.1) A (2 / 5) c2.2 c1.2

/-- `GyTARRouter._find_next_junction`: score every in-range grid junction
(no forward-progress filter) and keep the best; `none` only when no junction
is in range. -/
def gytar_find_next_junction (current_pos destination : Point)
    (vehicles : List VehicleInfo) (traffic : TrafficDict) : Option Point :=
  ((get_potential_junctions current_pos).foldl (fun best j =>
    let c := junction_score_cand j destination vehicles traffic
    match best with
    | none => some (c, j)
    | some (cb, _) =>
        if junctionScoreGt (dist2 current_pos destination) c cb then
          some (c, j)
        else best) none).map Prod.snd

/-- `GyTARRouter._find_next_vehicle_hop`: like the TMR hop selection but with
score `0.7·progress + 0.3·speed_factor`, so `u = 0.3·speed_factor` and the
progress weight is `0.7`. -/
def gytar_find_next_vehicle_hop (current target : Point)
    (vehicles : List VehicleInfo) : Option Point :=
  (vehicles.foldl (fun best v =>
    if is_forward_progress current v.location target then
      let c : ℚ × ℚ :=
        ((3 / 10) * speed_factor v.speed, dist2 v.location target)
      match best with
      | none => some (c, v.location)
      | some (cb, _) =>
          if progressScoreGt (7 / 10) c cb then some (c, v.location) else best
    else best) none).map Prod.snd

/-- The `while` loop of `_find_path_to_junction`, fuelled like
`tmr_route_loop`; `gytar_path_loop_some` shows `vehicles.length + 1` units
always suffice. -/
def gytar_path_loop (fuel : ℕ) (current target : Point)
    (vehicles : List VehicleInfo) : Option (List Point) :=
  match fuel with
  | 0 => none
  | fuel + 1 =>
      if dist2 current target ≤ 100 ^ 2 then some []
      else
        match gytar_find_next_vehicle_hop current target vehicles with
        | none => some []
        | some h =>
            (gytar_path_loop fuel h target vehicles).map (fun rest => h :: rest)

/-- `GyTARRouter._find_path_to_junction`: `[start] ++ hops ++ [junction]`
(the fuel never runs out, see `gytar_path_loop_some`). -/
def gytar_find_path_to_junction (start junction : Point)
    (vehicles : List VehicleInfo) : List Point :=
  start ::
    ((gytar_path_loop (vehicles.length + 1) start junction vehicles).getD []
      ++ [junction])

/-- The outer `while` loop of `GyTARRouter.find_route`, fuelled: each
iteration extends the route with `_find_path_to_junction(current, junction)`
and moves `current` to the junction.  `none` means the fuel ran out —
`C3_gytar_find_route_diverges` shows that on some inputs it does for *every*
fuel, i.e. the source loop never terminates. -/
def gytar_route_loop (fuel : ℕ) (current_pos destination : Point)
    (vehicles : List VehicleInfo) (traffic : TrafficDict) :
    Option (List Point) :=
  match fuel with
  | 0 => none
  | fuel + 1 =>
      if dist2 current_pos destination ≤ 100 ^ 2 then some []
      else
        match gytar_find_next_junction current_pos destination vehicles traffic with
        | none => some []
        | some j =>
            (gytar_route_loop fuel j destination vehicles traffic).map
              (fun rest => gytar_find_path_to_junction current_pos j vehicles ++ rest)

/-- The mutable state of `GyTARRouter`: the route cache (keyed like TMR's;
`junction_scores` is initialized but never used by any method and is
omitted). -/
structure GyTARRouter where
  route_cache : List ((Point × Point) × List Point)
deriving DecidableEq

/-- `GyTARRouter.update_traffic` — identical to `TMRRouter.update_traffic`. -/
def GyTARRouter.update_traffic (router : GyTARRouter) (traffic : TrafficDict) :
    GyTARRouter :=
  if 100 < router.route_cache.length then { router with route_cache := [] }
  else router

/-! ### Routing fixtures -/

/-- A single snapshot vehicle at `(1000, 0)` doing 80 km/h. -/
def vFar : VehicleInfo := ⟨⟨1000, 0⟩, 80⟩

/-- A TMR router with an empty cache. -/
def tmrEmpty : TMRRouter := ⟨[]⟩

/-- A one-entry route cache (for the `update_traffic` counterexample). -/
def smallCache : List ((Point × Point) × List Point) :=
  [((⟨0, 0⟩, ⟨1, 1⟩), [⟨0, 0⟩, ⟨1, 1⟩])]

/-- One distinct-keyed cache entry per index (for the `update_traffic`
witness). -/
def bigEntry (i : ℕ) : (Point × Point) × List Point :=
  ((⟨(i : ℚ), 0⟩, ⟨(i : ℚ), 1⟩), [])

/-- A 101-entry route cache (for the `update_traffic` witness). -/
def bigCache : List ((Point × Point) × List Point) :=
  (List.range 101).map bigEntry

/-! ### Facts about the ledger -/

theorem dist2_nonneg (p q : Point) : 0 ≤ dist2 p q := by
  have hx : (0:ℚ) ≤ (p.x - q.x) ^ 2 := sq_nonneg _
  have hy : (0:ℚ) ≤ (p.y - q.y) ^ 2 := sq_nonneg _
  simpa [dist2] using add_nonneg hx hy

theorem fresh_init (i : ℕ) (t : ℚ) (d : Payload) (p : HashVal) :
    (Block.init i t d p).fresh := rfl

/-- On any block the source built, re-running `calculate_hash` during
validation yields a digest over five fields, never equal to the stored
four-field digest. -/
theorem calculate_hash_ne_of_fresh (b : Block) (hb : b.fresh) :
    (b.hash == b.calculate_hash) = false := by
  apply beq_eq_false_iff_ne.mpr
  rw [hb]
  simp [Block.calculate_hash]

/-- If any non-head block of the chain is fresh, the validation walk fails. -/
theorem validWalk_eq_false {b : Block} (hb : b.fresh) :
    ∀ (a : Block) (l : List Block), b ∈ l → validWalk (a :: l) = false := by
  intro a l
  induction l generalizing a with
  | nil => intro h; cases h
  | cons c rest ih =>
      intro hmem
      rcases List.mem_cons.mp hmem with hcb | hrest
      · subst hcb
        simp [validWalk, calculate_hash_ne_of_fresh b hb]
      · have := ih c hrest
        simp [validWalk, this]

/-- Applying one ledger operation to a nonempty chain appends exactly one
fresh block, linked to the previous last block. -/
theorem applyLedgerOp_chain_last (bc : Blockchain) (op : LedgerOp)
    (prev : Block) (hprev : bc.chain.getLast? = some prev) :
    ∃ nb : Block, (applyLedgerOp bc op).chain = bc.chain ++ [nb] ∧ nb.fresh ∧
      nb.previous_hash = prev.hash ∧ nb.index = prev.index + 1 := by
  cases op with
  | addBlock t d =>
      refine ⟨Block.init (prev.index + 1) t d prev.hash, ?_, fresh_init .., rfl, rfl⟩
      simp [applyLedgerOp, Blockchain.add_block, hprev]
  | recordVehicleData vid loc sp dir msg tp tb =>
      refine ⟨Block.init (prev.index + 1) tb
        (.vehicleData vid loc sp dir msg tp) prev.hash, ?_, fresh_init .., rfl, rfl⟩
      simp [applyLedgerOp, Blockchain.record_vehicle_data, Blockchain.add_block,
        hprev]
  | recordRsuData rid conn tr tp tb =>
      refine ⟨Block.init (prev.index + 1) tb
        (.rsuData rid conn tr tp) prev.hash, ?_, fresh_init .., rfl, rfl⟩
      simp [applyLedgerOp, Blockchain.record_rsu_data, Blockchain.add_block,
        hprev]
  | addMaliciousVehicle vid tp tb =>
      refine ⟨Block.init (prev.index + 1) tb
        (.maliciousVehicle vid tp) prev.hash, ?_, fresh_init .., rfl, rfl⟩
      simp [applyLedgerOp, Blockchain.add_malicious_vehicle, Blockchain.add_block,
        hprev]

/-- Weak form: one operation on a nonempty chain appends one fresh block. -/
theorem applyLedgerOp_chain (bc : Blockchain) (op : LedgerOp)
    (h : bc.chain ≠ []) :
    ∃ nb : Block, (applyLedgerOp bc op).chain = bc.chain ++ [nb] ∧ nb.fresh := by
  obtain ⟨prev, hprev⟩ : ∃ p, bc.chain.getLast? = some p := by
    cases hl : bc.chain.getLast? with
    | some p => exact ⟨p, rfl⟩
    | none => exact absurd (List.getLast?_eq_none_iff.mp hl) h
  obtain ⟨nb, h1, h2, _, _⟩ := applyLedgerOp_chain_last bc op prev hprev
  exact ⟨nb, h1, h2⟩

/-- Applying a sequence of ledger operations appends a list of fresh blocks,
nonempty as soon as the sequence is. -/
theorem applyLedgerOps_chain (ops : List LedgerOp) :
    ∀ bc : Blockchain, bc.chain ≠ [] →
      ∃ suffix : List Block,
        (applyLedgerOps bc ops).chain = bc.chain ++ suffix ∧
        (∀ b ∈ suffix, b.fresh) ∧ (ops ≠ [] → suffix ≠ []) := by
  induction ops with
  | nil =>
      intro bc _
      exact ⟨[], by simp [applyLedgerOps], by simp, by simp⟩
  | cons op rest ih =>
      intro bc hbc
      obtain ⟨nb, hnb, hfresh⟩ := applyLedgerOp_chain bc op hbc
      have hne : (applyLedgerOp bc op).chain ≠ [] := by
        rw [hnb]; simp [hbc]
      obtain ⟨suffix, hs, hsf, _⟩ := ih (applyLedgerOp bc op) hne
      refine ⟨[nb] ++ suffix, ?_, ?_, by simp⟩
      · simpa [applyLedgerOps, hnb] using hs
      · intro b hb
        rcases List.mem_append.mp hb with h1 | h2
        · simpa using List.mem_singleton.mp h1 ▸ hfresh
        · exact hsf b h2

/-- **C1.** For any nonempty sequence of appends to a fresh ledger —
`add_block`, `record_vehicle_data`, `record_rsu_data` or
`add_malicious_vehicle`, with no external corruption — `is_chain_valid`
returns `false`, contradicting the claim that validation reports no
violation.  The revalidation digest serializes `self.__dict__`, which by then
contains the `hash` field, so it can never equal the stored construction-time
digest over the other four fields. -/
theorem C1_is_chain_valid_rejects_appended_chain (t0 : ℚ) (ops : List LedgerOp)
    (hops : ops ≠ []) :
    (applyLedgerOps (Blockchain.init t0) ops).is_chain_valid = false := by
  have hne : (Blockchain.init t0).chain ≠ [] := by simp [Blockchain.init]
  obtain ⟨suffix, hs, hsf, hsne⟩ := applyLedgerOps_chain ops _ hne
  have hsuffne : suffix ≠ [] := hsne hops
  obtain ⟨b, rest, hb⟩ : ∃ b rest, suffix = b :: rest := by
    cases suffix with
    | nil => exact absurd rfl hsuffne
    | cons b r => exact ⟨b, r, rfl⟩
  have hchain : (applyLedgerOps (Blockchain.init t0) ops).chain
      = create_genesis_block t0 :: suffix := by
    rw [hs]; simp [Blockchain.init]
  unfold Blockchain.is_chain_valid
  rw [hchain, hb]
  exact validWalk_eq_false (hsf b (by simp [hb])) _ _ (by simp)

/-- Witness for C1: a single `add_block` on a fresh ledger already fails
validation. -/
theorem C1_is_chain_valid_rejects_appended_chain_witness :
    (applyLedgerOps (Blockchain.init 0)
      [LedgerOp.addBlock 1 Payload.genesis]).is_chain_valid = false :=
  C1_is_chain_valid_rejects_appended_chain 0 [LedgerOp.addBlock 1 Payload.genesis]
    (by simp)

/-! ### The chain invariant (claim C9) -/

theorem linkedWalk_append {p b : Block}
    (hlink : b.previous_hash = p.hash) (hidx : b.index = p.index + 1) :
    ∀ l : List Block, l.getLast? = some p → linkedWalk l = true →
      linkedWalk (l ++ [b]) = true := by
  intro l
  induction l with
  | nil => intro h; simp at h
  | cons a rest ih =>
      intro hlast hok
      cases rest with
      | nil =>
          have ha : a = p := by simpa using hlast
          subst ha
          simp [linkedWalk, hlink, hidx]
      | cons c r =>
          have hlast' : (c :: r).getLast? = some p := by
            simpa [List.getLast?_cons_cons] using hlast
          have hok' : linkedWalk (c :: r) = true := by
            simp only [linkedWalk, Bool.and_eq_true] at hok
            exact hok.2
          have hhead : (c.previous_hash == a.hash) = true ∧
              (c.index == a.index + 1) = true := by
            simp only [linkedWalk, Bool.and_eq_true] at hok
            exact hok.1
          have := ih hlast' hok'
          simp only [List.cons_append] at this ⊢
          simp only [linkedWalk, Bool.and_eq_true]
          exact ⟨hhead, by simpa [List.cons_append] using this⟩

/-- Preservation of the chain invariant by every ledger operation. -/
theorem chainInvariant_preserved (bc : Blockchain) (op : LedgerOp)
    (h : chainInvariant bc) : chainInvariant (applyLedgerOp bc op) := by
  cases hl : bc.chain.getLast? with
  | none =>
      have hbc : bc.chain = [] := List.getLast?_eq_none_iff.mp hl
      have hsame : (applyLedgerOp bc op).chain = bc.chain := by
        cases op <;>
          simp [applyLedgerOp, Blockchain.add_block,
            Blockchain.record_vehicle_data, Blockchain.record_rsu_data,
            Blockchain.add_malicious_vehicle, hbc]
      exact ⟨by rw [hsame]; exact h.1, by rw [hsame]; exact h.2⟩
  | some prev =>
      obtain ⟨nb, hchain, hfresh, hprevhash, hindex⟩ :=
        applyLedgerOp_chain_last bc op prev hl
      constructor
      · rw [hchain]
        exact linkedWalk_append hprevhash hindex bc.chain hl h.1
      · intro b hb
        rw [hchain] at hb
        rcases List.mem_append.mp hb with h1 | h2
        · exact h.2 b h1
        · have : b = nb := by simpa using h2
          rw [this]; exact hfresh

/-- **C9.** Every ledger operation preserves the chain invariant: a fresh
ledger satisfies it, and each of the four append operations keeps it — for
all `i > 0`, `chain[i].previous_hash = chain[i-1].hash` and `chain[i].index =
chain[i-1].index + 1`, and every block's stored `hash` equals the digest of
its other fields as computed at construction time. -/
theorem C9_ledger_ops_preserve_chain_invariant :
    (∀ t : ℚ, chainInvariant (Blockchain.init t)) ∧
    (∀ (bc : Blockchain) (op : LedgerOp), chainInvariant bc →
        chainInvariant (applyLedgerOp bc op)) := by
  constructor
  · intro t
    refine ⟨by simp [Blockchain.init, linkedWalk], ?_⟩
    intro b hb
    have : b = create_genesis_block t := by simpa [Blockchain.init] using hb
    rw [this]
    exact fresh_init ..
  · exact chainInvariant_preserved

/-- Witness for C9: the invariant holds on a fresh ledger and is kept by a
concrete `add_block`. -/
theorem C9_ledger_ops_preserve_chain_invariant_witness :
    chainInvariant (applyLedgerOp (Blockchain.init 0)
      (LedgerOp.addBlock 1 Payload.genesis)) :=
  C9_ledger_ops_preserve_chain_invariant.2 _ _
    (C9_ledger_ops_preserve_chain_invariant.1 0)

/-! ### Association-list lemmas -/

theorem assocLookup_insert_self {κ α : Type} [DecidableEq κ]
    (l : List (κ × α)) (k : κ) (v : α) :
    assocLookup (assocInsert l k v) k = some v := by
  induction l with
  | nil => simp [assocInsert, assocLookup]
  | cons p t ih =>
      by_cases h : p.1 = k
      · simp [assocInsert, assocLookup, h]
      · simp [assocInsert, assocLookup, h, ih]

theorem assocLookup_eq_none_of_not_mem {κ α : Type} [DecidableEq κ]
    (l : List (κ × α)) (k : κ) (h : k ∉ l.map Prod.fst) :
    assocLookup l k = none := by
  induction l with
  | nil => rfl
  | cons p t ih =>
      have h1 : p.1 ≠ k := by
        intro he
        exact h (by simp [he])
      have h2 : k ∉ t.map Prod.fst := by
        intro hm
        exact h (by simp [hm])
      simp [assocLookup, h1, ih h2]

theorem assocLookup_erase_of_nodup {κ α : Type} [DecidableEq κ]
    (l : List (κ × α)) (k : κ) (h : (l.map Prod.fst).Nodup) :
    assocLookup (assocErase l k) k = none := by
  induction l with
  | nil => rfl
  | cons p t ih =>
      rw [List.map_cons, List.nodup_cons] at h
      by_cases hk : p.1 = k
      · rw [assocErase, if_pos hk]
        exact assocLookup_eq_none_of_not_mem t k (hk ▸ h.1)
      · rw [assocErase, if_neg hk, assocLookup, if_neg hk]
        exact ih h.2

/-! ### Branch lemmas for `_update_vehicle_data` -/

/-- On a tracked, non-blacklisted vehicle with positive elapsed time and a
suspicious update, `_update_vehicle_data` increments the counter and then
either marks-and-evicts (threshold reached) or stores the update. -/
theorem update_vehicle_data_susp (rsu : RSUState) (vid : String)
    (data : BeaconData) (port : ℕ) (ct : ℚ) (prev : StoredData)
    (h1 : vid ∉ rsu.blockchain.malicious_vehicles)
    (h2 : assocLookup rsu.connected_vehicles vid = some prev)
    (h3 : 0 < ct - prev.timestamp)
    (h4 : is_suspicious_update rsu prev data (ct - prev.timestamp) ct = true) :
    update_vehicle_data rsu vid data port ct =
      (if 3 ≤ assocGetD rsu.suspicious_count vid 0 + 1 then
        { rsu with
          suspicious_count := assocInsert rsu.suspicious_count vid
            (assocGetD rsu.suspicious_count vid 0 + 1),
          blockchain := rsu.blockchain.add_malicious_vehicle vid ct ct,
          connected_vehicles := assocErase rsu.connected_vehicles vid }
      else store_update
        { rsu with suspicious_count := assocInsert rsu.suspicious_count vid (assocGetD rsu.suspicious_count vid 0 + 1) }
        vid data port ct) := by
  unfold update_vehicle_data
  rw [if_neg h1, h2]
  simp only [if_pos h3, if_pos h4]

/-- On a tracked, non-blacklisted vehicle with positive elapsed time and a
non-suspicious update, `_update_vehicle_data` just stores the update. -/
theorem update_vehicle_data_nonsusp (rsu : RSUState) (vid : String)
    (data : BeaconData) (port : ℕ) (ct : ℚ) (prev : StoredData)
    (h1 : vid ∉ rsu.blockchain.malicious_vehicles)
    (h2 : assocLookup rsu.connected_vehicles vid = some prev)
    (h3 : 0 < ct - prev.timestamp)
    (h4 : is_suspicious_update rsu prev data (ct - prev.timestamp) ct = false) :
    update_vehicle_data rsu vid data port ct =
      store_update rsu vid data port ct := by
  unfold update_vehicle_data
  rw [if_neg h1, h2]
  simp only [if_pos h3, h4, if_neg (by simp : ¬ (false = true))]

/-- The update to `(1000,0)` is suspicious (kinematic bound) at any prior
count. -/
theorem dataFar_suspicious (cnt : ℕ) :
    is_suspicious_update (rsuAt cnt) prevW dataFar ((1:ℚ) - prevW.timestamp)
      1 = true := by
  norm_num [is_suspicious_update, speed_suspicious, movement_suspicious,
    bounds_suspicious, accident_suspicious, max_distance, dist2,
    prevW, dataFar, rsuAt, VEHICLE_MAX_VELOCITY, NETWORK_LENGTH, NETWORK_WIDTH]

/-- **C7.** A tracked vehicle with stored speed 80 km/h at `(0,0)` reporting
`(1000,0)` one second later trips the kinematic bound (the displacement of
1000 m exceeds `80 km/h · 1 s · 1.2 = 80/3 m`) and is flagged suspicious,
while a report of `(22,0)` one second later (22 m ≤ 80/3 m) passes every
check. -/
theorem C7_kinematic_bound_scenario :
    movement_suspicious prevW dataFar 1 = true ∧
    is_suspicious_update (rsuAt 0) prevW dataFar 1 1 = true ∧
    is_suspicious_update (rsuAt 0) prevW dataNear 1 1 = false := by
  refine ⟨?_, ?_, ?_⟩ <;>
    norm_num [is_suspicious_update, speed_suspicious, movement_suspicious,
      bounds_suspicious, accident_suspicious, max_distance, dist2,
      prevW, dataFar, dataNear, rsuAt, VEHICLE_MAX_VELOCITY, NETWORK_LENGTH,
      NETWORK_WIDTH]

/-- **C4.** For a tracked, non-blacklisted vehicle: (1) a suspicious event
that leaves the cumulative count below 3 keeps the vehicle tracked (its
snapshot is replaced) and leaves the ledger untouched; (2) the suspicious
event that reaches count 3 commits exactly one malicious-marking block,
evicts the vehicle from tracking, and does not store the triggering update;
(3) once the id is in the ledger's malicious set, any update is rejected
before evaluation with no change at all to the detector state or ledger. -/
theorem C4_anomaly_detector_threshold (rsu : RSUState) (vid : String)
    (data : BeaconData) (port : ℕ) (ct : ℚ) :
    (∀ prev : StoredData, vid ∉ rsu.blockchain.malicious_vehicles →
      assocLookup rsu.connected_vehicles vid = some prev →
      0 < ct - prev.timestamp →
      is_suspicious_update rsu prev data (ct - prev.timestamp) ct = true →
      assocGetD rsu.suspicious_count vid 0 + 1 < 3 →
      assocLookup (update_vehicle_data rsu vid data port ct).connected_vehicles
          vid = some ⟨data, ct, port⟩ ∧
        (update_vehicle_data rsu vid data port ct).blockchain = rsu.blockchain) ∧
    (∀ prev : StoredData, vid ∉ rsu.blockchain.malicious_vehicles →
      assocLookup rsu.connected_vehicles vid = some prev →
      0 < ct - prev.timestamp →
      is_suspicious_update rsu prev data (ct - prev.timestamp) ct = true →
      assocGetD rsu.suspicious_count vid 0 = 2 →
      (rsu.connected_vehicles.map Prod.fst).Nodup →
      rsu.blockchain.chain ≠ [] →
      (update_vehicle_data rsu vid data port ct).blockchain.chain.length
          = rsu.blockchain.chain.length + 1 ∧
        (∃ b : Block,
          (update_vehicle_data rsu vid data port ct).blockchain.chain.getLast?
              = some b ∧ b.data = Payload.maliciousVehicle vid ct) ∧
        vid ∈ (update_vehicle_data rsu vid data port ct).blockchain.malicious_vehicles ∧
        assocLookup (update_vehicle_data rsu vid data port ct).connected_vehicles
          vid = none) ∧
    (vid ∈ rsu.blockchain.malicious_vehicles →
      update_vehicle_data rsu vid data port ct = rsu) := by
  refine ⟨?_, ?_, ?_⟩
  · intro prev h1 h2 h3 h4 h5
    rw [update_vehicle_data_susp rsu vid data port ct prev h1 h2 h3 h4,
      if_neg (by omega)]
    constructor
    · exact assocLookup_insert_self ..
    · simp [store_update]
  · intro prev h1 h2 h3 h4 h5 hnodup hchain
    rw [update_vehicle_data_susp rsu vid data port ct prev h1 h2 h3 h4,
      if_pos (by omega)]
    obtain ⟨p, hp⟩ : ∃ p, rsu.blockchain.chain.getLast? = some p := by
      cases hl : rsu.blockchain.chain.getLast? with
      | some p => exact ⟨p, rfl⟩
      | none => exact absurd (List.getLast?_eq_none_iff.mp hl) hchain
    have hmal : rsu.blockchain.add_malicious_vehicle vid ct ct =
        { rsu.blockchain with
          malicious_vehicles := rsu.blockchain.malicious_vehicles ++ [vid],
          chain := rsu.blockchain.chain
            ++ [Block.init (p.index + 1) ct (.maliciousVehicle vid ct) p.hash] } := by
      simp [Blockchain.add_malicious_vehicle, Blockchain.add_block, h1, hp]
    refine ⟨?_, ⟨Block.init (p.index + 1) ct (.maliciousVehicle vid ct) p.hash,
      ?_, rfl⟩, ?_, ?_⟩
    · simp [hmal]
    · simp [hmal]
    · simp [hmal]
    · exact assocLookup_erase_of_nodup _ _ hnodup
  · intro hmem
    unfold update_vehicle_data
    rw [if_pos hmem]

/-- Witness for C4: at prior count 1 the suspicious `(1000,0)` update keeps
`"v1"` tracked with ledger untouched; at prior count 2 it marks, appends one
block and evicts; on the blacklisted RSU state the update is a no-op. -/
theorem C4_anomaly_detector_threshold_witness :
    (assocLookup (update_vehicle_data (rsuAt 1) "v1" dataFar 1 1).connected_vehicles
        "v1" = some ⟨dataFar, 1, 1⟩ ∧
      (update_vehicle_data (rsuAt 1) "v1" dataFar 1 1).blockchain
        = (rsuAt 1).blockchain) ∧
    ((update_vehicle_data (rsuAt 2) "v1" dataFar 1 1).blockchain.chain.length
        = (rsuAt 2).blockchain.chain.length + 1 ∧
      (∃ b : Block,
        (update_vehicle_data (rsuAt 2) "v1" dataFar 1 1).blockchain.chain.getLast?
            = some b ∧ b.data = Payload.maliciousVehicle "v1" 1) ∧
      "v1" ∈ (update_vehicle_data (rsuAt 2) "v1" dataFar 1 1).blockchain.malicious_vehicles ∧
      assocLookup (update_vehicle_data (rsuAt 2) "v1" dataFar 1 1).connected_vehicles
        "v1" = none) ∧
    update_vehicle_data rsuMal "v1" dataFar 1 1 = rsuMal :=
  ⟨(C4_anomaly_detector_threshold (rsuAt 1) "v1" dataFar 1 1).1 prevW
      (by simp [rsuAt, Blockchain.init])
      (by simp [rsuAt, assocLookup])
      (by norm_num [prevW])
      (dataFar_suspicious 1)
      (by norm_num [rsuAt, assocGetD, assocLookup]),
   (C4_anomaly_detector_threshold (rsuAt 2) "v1" dataFar 1 1).2.1 prevW
      (by simp [rsuAt, Blockchain.init])
      (by simp [rsuAt, assocLookup])
      (by norm_num [prevW])
      (dataFar_suspicious 2)
      (by norm_num [rsuAt, assocGetD, assocLookup])
      (by simp [rsuAt])
      (by simp [rsuAt, Blockchain.init]),
   (C4_anomaly_detector_threshold rsuMal "v1" dataFar 1 1).2.2
      (by simp [rsuMal])⟩

/-- **C10.** A suspicious update whose incremented count stays below 3 is
still stored: the resulting state is exactly a normal store of the new
snapshot on the state with the incremented counter. -/
theorem C10_suspicious_update_still_stored (rsu : RSUState) (vid : String)
    (data : BeaconData) (port : ℕ) (ct : ℚ) (prev : StoredData)
    (h1 : vid ∉ rsu.blockchain.malicious_vehicles)
    (h2 : assocLookup rsu.connected_vehicles vid = some prev)
    (h3 : 0 < ct - prev.timestamp)
    (h4 : is_suspicious_update rsu prev data (ct - prev.timestamp) ct = true)
    (h5 : assocGetD rsu.suspicious_count vid 0 + 1 < 3) :
    update_vehicle_data rsu vid data port ct =
      store_update
        { rsu with suspicious_count := assocInsert rsu.suspicious_count vid (assocGetD rsu.suspicious_count vid 0 + 1) }
        vid data port ct := by
  rw [update_vehicle_data_susp rsu vid data port ct prev h1 h2 h3 h4,
    if_neg (by omega)]

/-- Witness for C10 at the concrete kinematic-violation scenario with prior
count 1. -/
theorem C10_suspicious_update_still_stored_witness :
    update_vehicle_data (rsuAt 1) "v1" dataFar 1 1 =
      store_update
        { rsuAt 1 with suspicious_count := assocInsert (rsuAt 1).suspicious_count "v1" (assocGetD (rsuAt 1).suspicious_count "v1" 0 + 1) }
        "v1" dataFar 1 1 :=
  C10_suspicious_update_still_stored (rsuAt 1) "v1" dataFar 1 1 prevW
    (by simp [rsuAt, Blockchain.init])
    (by simp [rsuAt, assocLookup])
    (by norm_num [prevW])
    (dataFar_suspicious 1)
    (by norm_num [rsuAt, assocGetD, assocLookup])

/-- **C5, counterexample.**  In a state whose only tracked vehicle is the
reporter `"v1"` itself — so there are zero accident-visibility reports from
other vehicles — the peer-consensus check is nevertheless evaluated: the
single recent report it counts is `"v1"`'s own previous one (`[true]`), the
reported flag `False` differs from that majority, and the update is flagged
suspicious (the counter rises to 1).  This refutes both the "at least 2
reports from other vehicles" guard and the exclusion of the reporter's own
prior report. -/
theorem C5_counterexample_own_report_triggers_check :
    rsuAcc.connected_vehicles.filter (fun p => decide (p.1 ≠ "v1")) = [] ∧
    nearby_reports rsuAcc dataAcc.location 11 = [true] ∧
    accident_suspicious rsuAcc dataAcc 11 = true ∧
    assocGetD (update_vehicle_data rsuAcc "v1" dataAcc 1 11).suspicious_count
      "v1" 0 = 1 := by
  refine ⟨by simp [rsuAcc], ?_, ?_, ?_⟩ <;>
    norm_num [update_vehicle_data, is_suspicious_update, speed_suspicious,
      movement_suspicious, bounds_suspicious, accident_suspicious,
      nearby_reports, get_nearby_vehicles, majority_report, max_distance,
      dist2, store_update, assocGetD, assocLookup, assocInsert,
      List.filterMap_cons, List.filterMap_nil,
      rsuAcc, prevAcc, dataAcc, Blockchain.init, VEHICLE_MAX_VELOCITY,
      NETWORK_LENGTH, NETWORK_WIDTH]

/-- **C5, amended.**  For a tracked, non-blacklisted vehicle whose update
fails none of the speed/kinematic/geo-fence checks: with zero stored
accident-visibility reports of the last 2 seconds among nearby tracked
non-malicious vehicles (the reporter's own previous report included in that
count), the peer check is skipped and the update stored normally; with at
least one such report, the check is evaluated and a flag differing from the
strict majority makes the update suspicious (here: counter incremented below
threshold, update still stored). -/
theorem C5_amended_peer_check (rsu : RSUState) (vid : String)
    (data : BeaconData) (port : ℕ) (ct : ℚ) (prev : StoredData)
    (h1 : vid ∉ rsu.blockchain.malicious_vehicles)
    (h2 : assocLookup rsu.connected_vehicles vid = some prev)
    (h3 : 0 < ct - prev.timestamp)
    (hsp : speed_suspicious data = false)
    (hmv : movement_suspicious prev data (ct - prev.timestamp) = false)
    (hbd : bounds_suspicious data = false) :
    (nearby_reports rsu data.location ct = [] →
      update_vehicle_data rsu vid data port ct =
        store_update rsu vid data port ct) ∧
    (∀ flag : Bool, data.sees_accident = some flag →
      nearby_reports rsu data.location ct ≠ [] →
      flag ≠ majority_report (nearby_reports rsu data.location ct) →
      assocGetD rsu.suspicious_count vid 0 + 1 < 3 →
      update_vehicle_data rsu vid data port ct =
        store_update
          { rsu with suspicious_count := assocInsert rsu.suspicious_count vid (assocGetD rsu.suspicious_count vid 0 + 1) }
          vid data port ct) := by
  constructor
  · intro hrep
    have hacc : accident_suspicious rsu data ct = false := by
      cases hsa : data.sees_accident with
      | none => simp [accident_suspicious, hsa]
      | some f => simp [accident_suspicious, hsa, hrep]
    exact update_vehicle_data_nonsusp rsu vid data port ct prev h1 h2 h3
      (by simp [is_suspicious_update, hsp, hmv, hbd, hacc])
  · intro flag hflag hne hmaj hcnt
    have hacc : accident_suspicious rsu data ct = true := by
      simp [accident_suspicious, hflag, hne, hmaj]
    rw [update_vehicle_data_susp rsu vid data port ct prev h1 h2 h3
      (by simp [is_suspicious_update, hacc]), if_neg (by omega)]

/-- Witness for the amended C5: with the no-flag snapshot the check is
skipped and the `(22,0)` update stored unchanged; in the own-report state the
check fires and the counter is incremented while the update is stored. -/
theorem C5_amended_peer_check_witness :
    (update_vehicle_data (rsuAt 1) "v1" dataNear 1 1 =
      store_update (rsuAt 1) "v1" dataNear 1 1) ∧
    (update_vehicle_data rsuAcc "v1" dataAcc 1 11 =
      store_update
        { rsuAcc with suspicious_count := assocInsert rsuAcc.suspicious_count "v1" (assocGetD rsuAcc.suspicious_count "v1" 0 + 1) }
        "v1" dataAcc 1 11) :=
  ⟨(C5_amended_peer_check (rsuAt 1) "v1" dataNear 1 1 prevW
      (by simp [rsuAt, Blockchain.init])
      (by simp [rsuAt, assocLookup])
      (by norm_num [prevW])
      (by norm_num [speed_suspicious, dataNear, VEHICLE_MAX_VELOCITY])
      (by norm_num [movement_suspicious, max_distance, dist2, prevW, dataNear])
      (by norm_num [bounds_suspicious, dataNear, NETWORK_LENGTH, NETWORK_WIDTH])).1
    (by norm_num [nearby_reports, get_nearby_vehicles, rsuAt, prevW, dataNear,
      dist2, Blockchain.init]),
   (C5_amended_peer_check rsuAcc "v1" dataAcc 1 11 prevAcc
      (by simp [rsuAcc, Blockchain.init])
      (by simp [rsuAcc, assocLookup])
      (by norm_num [prevAcc])
      (by norm_num [speed_suspicious, dataAcc, VEHICLE_MAX_VELOCITY])
      (by norm_num [movement_suspicious, max_distance, dist2, prevAcc, dataAcc])
      (by norm_num [bounds_suspicious, dataAcc, NETWORK_LENGTH, NETWORK_WIDTH])).2
    false (by simp [dataAcc])
    (by norm_num [nearby_reports, get_nearby_vehicles, rsuAcc, prevAcc, dataAcc,
      dist2, Blockchain.init, List.filterMap_cons, List.filterMap_nil])
    (by norm_num [nearby_reports, get_nearby_vehicles, rsuAcc, prevAcc, dataAcc,
      dist2, Blockchain.init, majority_report, List.filterMap_cons,
      List.filterMap_nil])
    (by norm_num [rsuAcc, assocGetD, assocLookup])⟩

/-! ### Route caches and `update_traffic` (claim C6) -/

/-- **C6, counterexample.** A traffic-update call on a one-entry cache leaves
the cache untouched (and nonempty): `update_traffic` clears only when the
cache holds more than 100 entries, not on every call. -/
theorem C6_counterexample_small_cache_not_cleared :
    (GyTARRouter.mk smallCache).update_traffic [] = GyTARRouter.mk smallCache ∧
    smallCache ≠ [] := by
  constructor
  · norm_num [GyTARRouter.update_traffic, smallCache]
  · simp [smallCache]

/-- **C6, amended.** For both the greedy forward-progress and junction-based
strategies, `update_traffic` empties the route cache iff the cache held more
than 100 entries; with at most 100 entries the router is unchanged. -/
theorem C6_amended_update_traffic_clears_iff_over_100 :
    (∀ (r : TMRRouter) (traffic : TrafficDict),
      (100 < r.route_cache.length →
        (r.update_traffic traffic).route_cache = []) ∧
      (r.route_cache.length ≤ 100 → r.update_traffic traffic = r)) ∧
    (∀ (r : GyTARRouter) (traffic : TrafficDict),
      (100 < r.route_cache.length →
        (r.update_traffic traffic).route_cache = []) ∧
      (r.route_cache.length ≤ 100 → r.update_traffic traffic = r)) := by
  constructor
  all_goals
    intro r traffic
    constructor
    · intro h
      simp [TMRRouter.update_traffic, GyTARRouter.update_traffic, h]
    · intro h
      simp [TMRRouter.update_traffic, GyTARRouter.update_traffic,
        Nat.not_lt.mpr h]

/-- Witness for the amended C6: a 101-entry cache is emptied, a 1-entry cache
is left alone. -/
theorem C6_amended_update_traffic_clears_iff_over_100_witness :
    ((TMRRouter.mk bigCache).update_traffic []).route_cache = [] ∧
    (GyTARRouter.mk smallCache).update_traffic [] = GyTARRouter.mk smallCache :=
  ⟨(C6_amended_update_traffic_clears_iff_over_100.1 (TMRRouter.mk bigCache)
      []).1 (by rw [show (TMRRouter.mk bigCache).route_cache = bigCache from rfl,
        bigCache, List.length_map, List.length_range]; omega),
   (C6_amended_update_traffic_clears_iff_over_100.2 (GyTARRouter.mk smallCache)
      []).2 (by norm_num [smallCache])⟩

/-! ### Hop selection facts (claims C2, C8) -/

/-- Generic fact about the argmax folds of `_find_next_hop` /
`_find_next_vehicle_hop`: a `some` result either was already the accumulator
or is the location of a folded vehicle that passed the forward-progress
filter. -/
theorem greedy_fold_spec (cur tgt : Point) (mk : VehicleInfo → ℚ × ℚ)
    (cmp : ℚ × ℚ → ℚ × ℚ → Bool) :
    ∀ (l : List VehicleInfo) (acc : Option ((ℚ × ℚ) × Point)) (c : ℚ × ℚ)
      (p : Point),
      l.foldl (fun best v =>
        if is_forward_progress cur v.location tgt then
          match best with
          | none => some (mk v, v.location)
          | some (cb, _) =>
              if cmp (mk v) cb then some (mk v, v.location) else best
        else best) acc = some (c, p) →
      acc = some (c, p) ∨
        (∃ v ∈ l, v.location = p ∧ dist2 p tgt < dist2 cur tgt) := by
  intro l
  induction l with
  | nil =>
      intro acc c p hf
      exact Or.inl hf
  | cons v t ih =>
      intro acc c p hf
      rw [List.foldl_cons] at hf
      rcases ih _ c p hf with hacc | ⟨w, hw, hl⟩
      · by_cases hfw : is_forward_progress cur v.location tgt = true
        · rw [if_pos hfw] at hacc
          have hfwd : dist2 v.location tgt < dist2 cur tgt := by
            simpa [is_forward_progress] using hfw
          cases acc with
          | none =>
              have : v.location = p := by
                simpa using congrArg (Option.map Prod.snd) hacc
              exact Or.inr ⟨v, List.mem_cons_self .., this, this ▸ hfwd⟩
          | some cb =>
              obtain ⟨cbv, cbp⟩ := cb
              have hacc' : (if cmp (mk v) cbv = true then
                  some (mk v, v.location) else some (cbv, cbp)) = some (c, p) :=
                hacc
              by_cases hcmp : cmp (mk v) cbv = true
              · rw [if_pos hcmp] at hacc'
                have : v.location = p := by
                  simpa using congrArg (Option.map Prod.snd) hacc'
                exact Or.inr ⟨v, List.mem_cons_self .., this, this ▸ hfwd⟩
              · rw [if_neg hcmp] at hacc'
                exact Or.inl hacc'
        · rw [if_neg hfw] at hacc
          exact Or.inl hacc
      · exact Or.inr ⟨w, List.mem_cons_of_mem v hw, hl⟩

/-- Any hop returned by `TMRRouter._find_next_hop` is a snapshot vehicle's
location making strict forward progress. -/
theorem tmr_find_next_hop_spec (cur dest : Point)
    (vehicles : List VehicleInfo) (traffic : TrafficDict) (h : Point)
    (hh : tmr_find_next_hop cur dest vehicles traffic = some h) :
    dist2 h dest < dist2 cur dest ∧ ∃ v ∈ vehicles, v.location = h := by
  unfold tmr_find_next_hop at hh
  rcases Option.map_eq_some'.mp hh with ⟨⟨c, p⟩, hf, hp⟩
  rcases greedy_fold_spec cur dest
      (fun v => tmr_hop_cand v.speed (trafficCongestion traffic)
        (dist2 v.location dest))
      (progressScoreGt (1 / 2)) vehicles none c p hf with
    h1 | ⟨v, hv, hloc, hlt⟩
  · cases h1
  · cases hp
    exact ⟨hlt, v, hv, hloc⟩

/-- Any hop returned by `GyTARRouter._find_next_vehicle_hop` is a snapshot
vehicle's location making strict forward progress towards the target. -/
theorem gytar_find_next_vehicle_hop_spec (cur tgt : Point)
    (vehicles : List VehicleInfo) (h : Point)
    (hh : gytar_find_next_vehicle_hop cur tgt vehicles = some h) :
    dist2 h tgt < dist2 cur tgt ∧ ∃ v ∈ vehicles, v.location = h := by
  unfold gytar_find_next_vehicle_hop at hh
  rcases Option.map_eq_some'.mp hh with ⟨⟨c, p⟩, hf, hp⟩
  rcases greedy_fold_spec cur tgt
      (fun v => ((3 / 10) * speed_factor v.speed, dist2 v.location tgt))
      (progressScoreGt (7 / 10)) vehicles none c p hf with
    h1 | ⟨v, hv, hloc, hlt⟩
  · cases h1
  · cases hp
    exact ⟨hlt, v, hv, hloc⟩

/-- Strict monotonicity of filter length: if `p` implies `q` and some listed
element satisfies `q` but not `p`, the `p`-filter is strictly shorter. -/
theorem length_filter_lt_filter {α : Type} (p q : α → Bool)
    (himp : ∀ x, p x = true → q x = true) :
    ∀ (l : List α) (x : α), x ∈ l → q x = true → p x = false →
      (l.filter p).length < (l.filter q).length := by
  intro l
  induction l with
  | nil =>
      intro x hx
      cases hx
  | cons a t ih =>
      intro x hx hqx hpx
      rcases List.mem_cons.mp hx with rfl | hxt
      · rw [List.filter_cons, List.filter_cons, hpx, hqx]
        simpa using Nat.lt_succ_of_le
          (List.Sublist.length_le (List.monotone_filter_right t himp))
      · by_cases hpa : p a = true
        · rw [List.filter_cons, List.filter_cons, hpa, himp a hpa]
          simpa using ih x hxt hqx hpx
        · have hpa' : p a = false := by simpa using hpa
          rw [List.filter_cons, List.filter_cons, hpa']
          by_cases hqa : q a = true
          · rw [hqa]
            simpa using Nat.lt_succ_of_lt (ih x hxt hqx hpx)
          · have hqa' : q a = false := by simpa using hqa
            rw [hqa']
            simpa using ih x hxt hqx hpx

/-- Fuel sufficiency for the TMR loop: one unit more than the number of
snapshot vehicles strictly closer to the destination always suffices, since
every accepted hop strictly decreases that count. -/
theorem tmr_route_loop_some :
    ∀ (fuel : ℕ) (cur dest : Point) (vehicles : List VehicleInfo)
      (traffic : TrafficDict),
      (vehicles.filter (fun v =>
        decide (dist2 v.location dest < dist2 cur dest))).length < fuel →
      ∃ hops, tmr_route_loop fuel cur dest vehicles traffic = some hops := by
  intro fuel
  induction fuel with
  | zero =>
      intro cur dest vehicles traffic h
      omega
  | succ n ih =>
      intro cur dest vehicles traffic hcount
      by_cases hnear : dist2 cur dest ≤ 100 ^ 2
      · exact ⟨[], by simp [tmr_route_loop, hnear]⟩
      · cases hhop : tmr_find_next_hop cur dest vehicles traffic with
        | none => exact ⟨[], by simp [tmr_route_loop, hnear, hhop]⟩
        | some h =>
            obtain ⟨hlt, v0, hv0, hloc⟩ :=
              tmr_find_next_hop_spec cur dest vehicles traffic h hhop
            have hmono :
                (vehicles.filter (fun v =>
                  decide (dist2 v.location dest < dist2 h dest))).length
                  < (vehicles.filter (fun v =>
                  decide (dist2 v.location dest < dist2 cur dest))).length := by
              apply length_filter_lt_filter _ _ ?_ vehicles v0 hv0 ?_ ?_
              · intro x hx
                simp only [decide_eq_true_eq] at hx ⊢
                exact hx.trans hlt
              · simp only [decide_eq_true_eq, hloc]
                exact hlt
              · simp [hloc]
            obtain ⟨hops, hrec⟩ := ih h dest vehicles traffic (by omega)
            exact ⟨h :: hops, by simp [tmr_route_loop, hnear, hhop, hrec]⟩

/-- **C8.** `TMRRouter.find_route`'s loop terminates on every input: fuel
`vehicles.length + 1` always yields a result (the loop exits on proximity or
on a `none` hop), and every accepted hop is drawn from the snapshot and
strictly decreases the remaining distance to the destination. -/
theorem C8_tmr_find_route_terminates (cur dest : Point)
    (vehicles : List VehicleInfo) (traffic : TrafficDict) :
    (∃ hops,
      tmr_route_loop (vehicles.length + 1) cur dest vehicles traffic
        = some hops) ∧
    (∀ h : Point, tmr_find_next_hop cur dest vehicles traffic = some h →
      dist2 h dest < dist2 cur dest ∧ ∃ v ∈ vehicles, v.location = h) := by
  constructor
  · apply tmr_route_loop_some
    have := List.length_filter_le
      (fun v : VehicleInfo => decide (dist2 v.location dest < dist2 cur dest))
      vehicles
    omega
  · intro h hh
    exact tmr_find_next_hop_spec cur dest vehicles traffic h hh

/-- Witness for C8 on a concrete snapshot: the loop finishes within its fuel
and the selected hop `(1000,0)` is strictly closer to `(3000,0)` than the
source `(0,0)`. -/
theorem C8_tmr_find_route_terminates_witness :
    (∃ hops,
      tmr_route_loop (([vFar] : List VehicleInfo).length + 1)
        ⟨0, 0⟩ ⟨3000, 0⟩ [vFar] [] = some hops) ∧
    dist2 ⟨1000, 0⟩ ⟨3000, 0⟩ < dist2 ⟨0, 0⟩ ⟨3000, 0⟩ :=
  ⟨(C8_tmr_find_route_terminates ⟨0, 0⟩ ⟨3000, 0⟩ [vFar] []).1,
   ((C8_tmr_find_route_terminates ⟨0, 0⟩ ⟨3000, 0⟩ [vFar] []).2 ⟨1000, 0⟩
      (by norm_num [tmr_find_next_hop, is_forward_progress, tmr_hop_cand,
        trafficCongestion, assocGetD, assocLookup, dist2, vFar])).1⟩

/-- **C2, counterexample.** With one snapshot vehicle at `(1000,0)`, the TMR
route from `(0,0)` to `(3000,0)` is `[(0,0), (1000,0), (3000,0)]`; its first
consecutive pair — not the last one — is 1000 m apart, far beyond
`MAX_V2V_RANGE = 300`.  Neither greedy router ever checks hop distances
against the V2V range. -/
theorem C2_counterexample_range_violation :
    (tmrEmpty.find_route ⟨0, 0⟩ ⟨3000, 0⟩ [vFar] []).2
        = [⟨0, 0⟩, ⟨1000, 0⟩, ⟨3000, 0⟩] ∧
    ¬ dist2 ⟨0, 0⟩ ⟨1000, 0⟩ ≤ MAX_V2V_RANGE ^ 2 := by
  constructor
  · norm_num [TMRRouter.find_route, tmrEmpty, assocLookup, tmr_route_loop,
      tmr_find_next_hop, is_forward_progress, tmr_hop_cand, trafficCongestion,
      assocGetD, dist2, vFar, assocInsert]
  · norm_num [dist2, MAX_V2V_RANGE]

/-- **C2, amended.** The greedy strategies do not enforce the V2V range on
hops.  What holds instead: every hop the TMR loop appends is the location of
some snapshot vehicle and strictly decreases the distance to the
destination (the returned route is `source :: hops ++ [destination]`). -/
theorem C2_amended_hops_forward_progress (fuel : ℕ) (cur dest : Point)
    (vehicles : List VehicleInfo) (traffic : TrafficDict) (hops : List Point)
    (hloop : tmr_route_loop fuel cur dest vehicles traffic = some hops) :
    List.Chain (fun a b => dist2 b dest < dist2 a dest ∧
      ∃ v ∈ vehicles, v.location = b) cur hops := by
  induction fuel generalizing cur hops with
  | zero => cases hloop
  | succ n ih =>
      simp only [tmr_route_loop] at hloop
      by_cases hnear : dist2 cur dest ≤ 100 ^ 2
      · rw [if_pos hnear] at hloop
        cases hloop
        exact List.Chain.nil
      · rw [if_neg hnear] at hloop
        cases hhop : tmr_find_next_hop cur dest vehicles traffic with
        | none =>
            rw [hhop] at hloop
            cases hloop
            exact List.Chain.nil
        | some h =>
            rw [hhop] at hloop
            rcases Option.map_eq_some'.mp hloop with ⟨rest, hrest, hcons⟩
            obtain ⟨hlt, hv⟩ :=
              tmr_find_next_hop_spec cur dest vehicles traffic h hhop
            rw [← hcons]
            exact List.Chain.cons ⟨hlt, hv⟩ (ih h rest hrest)

/-- Witness for the amended C2 at the counterexample input: the single hop
`(1000,0)` is a snapshot location strictly closer to the destination. -/
theorem C2_amended_hops_forward_progress_witness :
    List.Chain (fun a b => dist2 b (Point.mk 3000 0) < dist2 a (Point.mk 3000 0)
      ∧ ∃ v ∈ [vFar], v.location = b) ⟨0, 0⟩ [⟨1000, 0⟩] :=
  C2_amended_hops_forward_progress 2 ⟨0, 0⟩ ⟨3000, 0⟩ [vFar] [] [⟨1000, 0⟩]
    (by norm_num [tmr_route_loop, tmr_find_next_hop, is_forward_progress,
      tmr_hop_cand, trafficCongestion, assocGetD, assocLookup, dist2, vFar])

/-! ### Non-termination of the junction loop (claim C3) -/

/-- **C3.** `GyTARRouter.find_route` does *not* terminate on every input: from
source `(0,0)` to destination `(3000,3000)` with an empty snapshot, the only
grid junction within V2V range of `(0,0)` is `(0,0)` itself, so every
iteration of the outer loop selects the current position as the next
junction and never makes progress — the loop runs forever (the fuelled
embedding is exhausted for every fuel). -/
theorem C3_gytar_find_route_diverges (fuel : ℕ) (traffic : TrafficDict) :
    gytar_route_loop fuel ⟨0, 0⟩ ⟨3000, 3000⟩ [] traffic = none := by
  induction fuel with
  | zero => rfl
  | succ n ih =>
      have hj : gytar_find_next_junction ⟨0, 0⟩ ⟨3000, 3000⟩ [] traffic
          = some ⟨0, 0⟩ := by
        norm_num [gytar_find_next_junction, get_potential_junctions,
          grid_coordinates, List.range_succ, junction_score_cand,
          traffic_density, dist2, MAX_V2V_RANGE]
      simp only [gytar_route_loop]
      rw [if_neg (by norm_num [dist2]), hj]
      simp [ih]

/-- Fuel sufficiency for GyTAR's vehicle-hop loop, by the same strict
distance decrease as for TMR: `vehicles.length + 1` units always suffice, so
the fallback branch of `gytar_find_path_to_junction` is unreachable. -/
theorem gytar_path_loop_some :
    ∀ (fuel : ℕ) (cur target : Point) (vehicles : List VehicleInfo),
      (vehicles.filter (fun v =>
        decide (dist2 v.location target < dist2 cur target))).length < fuel →
      ∃ hops, gytar_path_loop fuel cur target vehicles = some hops := by
  intro fuel
  induction fuel with
  | zero =>
      intro cur target vehicles h
      omega
  | succ n ih =>
      intro cur target vehicles hcount
      by_cases hnear : dist2 cur target ≤ 100 ^ 2
      · exact ⟨[], by simp [gytar_path_loop, hnear]⟩
      · cases hhop : gytar_find_next_vehicle_hop cur target vehicles with
        | none => exact ⟨[], by simp [gytar_path_loop, hnear, hhop]⟩
        | some h =>
            obtain ⟨hlt, v0, hv0, hloc⟩ :=
              gytar_find_next_vehicle_hop_spec cur target vehicles h hhop
            have hmono :
                (vehicles.filter (fun v =>
                  decide (dist2 v.location target < dist2 h target))).length
                  < (vehicles.filter (fun v =>
                  decide (dist2 v.location target < dist2 cur target))).length := by
              apply length_filter_lt_filter _ _ ?_ vehicles v0 hv0 ?_ ?_
              · intro x hx
                simp only [decide_eq_true_eq] at hx ⊢
                exact hx.trans hlt
              · simp only [decide_eq_true_eq, hloc]
                exact hlt
              · simp [hloc]
            obtain ⟨hops, hrec⟩ := ih h target vehicles (by omega)
            exact ⟨h :: hops, by simp [gytar_path_loop, hnear, hhop, hrec]⟩
